import Mathlib

/-!
Verification development for the interactive multi-series line chart
(`src/App.tsx` and `src/components/LineChart.tsx`).

The TypeScript source is shallowly embedded:
* JavaScript numbers used by the generator are modelled as `ℚ` (all the
  constants involved are exact decimals, so rational arithmetic matches the
  intent of the arithmetic in the source; `Math.round` is `jsRound`).
* The `Math.random()` stream is an explicit parameter `rand : ℕ → ℚ`, where
  `rand k` is the value produced by the k-th call of `Math.random()` in the
  program order (first one call per airline for the initial values, then one
  call per airline inside every month step).
* JavaScript objects used as string-keyed maps (`lastValues`, the fields of a
  data point) are modelled as functions `String → ℚ` and `String → Option ℤ`
  updated by function override, which matches last-write-wins key semantics.
* React `useState` state is modelled as a record `AppState`, each setter
  becoming a function from state to state.

The root-namespace definitions follow the component embedded in
`src/App.tsx`; the `Chart` namespace re-embeds the near-duplicate generator
and handlers of `src/components/LineChart.tsx`.
-/

/-- The `group` field of an `Airline` in the source: the union type of the
two literals operating and discontinued. -/
inductive AirlineGroup where
  | operating
  | discontinued
deriving DecidableEq, Repr

/-- The `Airline` interface of the source. -/
structure Airline where
  code : String
  name : String
  color : String
  group : AirlineGroup
deriving DecidableEq, Repr

/-- Palette `operatingColors` from the source. -/
def operatingColors : List String :=
  ["#1f77b4", "#2ca02c", "#ff7f0e", "#d62728", "#9467bd",
   "#8c564b", "#e377c2", "#7f7f7f", "#bcbd22", "#17becf"]

/-- Palette `discontinuedColors` from the source. -/
def discontinuedColors : List String :=
  ["#aec7e8", "#98df8a", "#ffbb78", "#ff9896", "#c5b0d5",
   "#c49c94", "#f7b6d3", "#c7c7c7", "#dbdb8d", "#9edae5"]

/-- Function `generateAirlines` from the source: six operating airlines followed by six
discontinued airlines, colored by position in the group palette. -/
def generateAirlines : List Airline :=
  (List.enum ["LX", "BA", "AF", "LH", "KL", "IB"]).map
    (fun p =>
      { code := p.2, name := "Airline " ++ p.2,
        color := operatingColors.getD p.1 "", group := AirlineGroup.operating })
  ++ (List.enum ["CX", "LZ", "C3", "UL", "AA", "DL"]).map
    (fun p =>
      { code := p.2, name := "Airline " ++ p.2,
        color := discontinuedColors.getD p.1 "", group := AirlineGroup.discontinued })

/-- The `DataPoint` interface: a decimal year and a string-keyed map from
airline code to the stored (rounded) value.  The map is a function to match
JavaScript object lookup; codes never written map to `none` (undefined). -/
structure DataPoint where
  year : ℚ
  values : String → Option ℤ

/-- A data point with no values, used as the `getD` fallback in statements. -/
def defaultDataPoint : DataPoint := { year := 0, values := fun _ => none }

/-- Override one key of a string-keyed rational map (JS `obj[k] = v`). -/
def updFn (f : String → ℚ) (k : String) (v : ℚ) : String → ℚ :=
  fun s => if s = k then v else f s

/-- Override one key of a data-point value map (JS `dataPoint[k] = v`). -/
def updVals (f : String → Option ℤ) (k : String) (v : ℤ) : String → Option ℤ :=
  fun s => if s = k then some v else f s

/-- JavaScript `Math.round` on the rationals: round half toward positive
infinity, i.e. `⌊q + 1/2⌋`. -/
def jsRound (q : ℚ) : ℤ := ⌊q + 1 / 2⌋

/-- The initial `lastValues` entry for one airline:
`Math.random() * 2000 + 2000` for operating, `Math.random() * 1500 + 1000`
for discontinued. -/
def initValue (g : AirlineGroup) (r : ℚ) : ℚ :=
  match g with
  | AirlineGroup.operating => r * 2000 + 2000
  | AirlineGroup.discontinued => r * 1500 + 1000

/-- The `0.08` factor of `const maxVariation = lastValue * 0.08`. -/
def maxVariationFraction : ℚ := 8 / 100

/-- The perturbation step before any trend multiplier:
`newValue = lastValue + (Math.random() - 0.5) * 2 * (lastValue * 0.08)`. -/
def perturb (r lastValue : ℚ) : ℚ :=
  lastValue + (r - 1 / 2) * 2 * (lastValue * maxVariationFraction)

/-- The date-conditioned multiplicative trends applied to the perturbed value:
COVID drop and recovery for operating airlines, the two compounding decline
multipliers for discontinued airlines. -/
def applyTrends (g : AirlineGroup) (year month : ℕ) (v : ℚ) : ℚ :=
  match g with
  | AirlineGroup.operating =>
      let v1 := if year = 2020 ∧ 3 ≤ month ∧ month ≤ 6 then v * (85 / 100) else v
      if year = 2021 ∨ (year = 2022 ∧ month ≤ 6) then v1 * (102 / 100) else v1
  | AirlineGroup.discontinued =>
      let v1 := if 2015 < year then v * (997 / 1000) else v
      if 2018 < year then v1 * (995 / 1000) else v1

/-- The clamp applied after the trends:
`Math.max(800, Math.min(5500, v))` for operating airlines and
`Math.max(100, Math.min(3500, v))` for discontinued airlines. -/
def clampBand (g : AirlineGroup) (v : ℚ) : ℚ :=
  match g with
  | AirlineGroup.operating => max 800 (min 5500 v)
  | AirlineGroup.discontinued => max 100 (min 3500 v)

/-- The whole step of one airline: perturb the last value, apply the trends, clamp.
The result is what the source assigns back to `lastValues[airline.code]`. -/
def stepValue (g : AirlineGroup) (year month : ℕ) (r lastValue : ℚ) : ℚ :=
  clampBand g (applyTrends g year month (perturb r lastValue))

/-- The lower bound of the clamp band of a group, as stated by the spec. -/
def bandLo (g : AirlineGroup) : ℤ :=
  match g with
  | AirlineGroup.operating => 800
  | AirlineGroup.discontinued => 100

/-- The upper bound of the clamp band of a group, as stated by the spec. -/
def bandHi (g : AirlineGroup) : ℤ :=
  match g with
  | AirlineGroup.operating => 5500
  | AirlineGroup.discontinued => 3500

/-- The initialization loop of `generateData`: `lastValues[airline.code]`
seeded from the group range, consuming `rand 0, rand 1, …` in airline order. -/
def initLastValues (airlines : List Airline) (rand : ℕ → ℚ) : String → ℚ :=
  (airlines.enum).foldl
    (fun st p => updFn st p.2.code (initValue p.2.group (rand p.1))) (fun _ => 0)

/-- The inner `airlines.forEach` body of one month step, threading both the
`lastValues` map and the data-point value map.  `n` is the airline count and
`t` the zero-based month-step index, so the random draw for the airline at
position `p.1` is call number `n + t * n + p.1` of the stream. -/
def stepAirlines (rand : ℕ → ℚ) (n t year month : ℕ) :
    List (ℕ × Airline) → (String → ℚ) → (String → Option ℤ) →
    (String → ℚ) × (String → Option ℤ)
  | [], st, vals => (st, vals)
  | p :: rest, st, vals =>
      let r := rand (n + t * n + p.1)
      let nv := stepValue p.2.group year month r (st p.2.code)
      stepAirlines rand n t year month rest
        (updFn st p.2.code nv) (updVals vals p.2.code (jsRound nv))

/-- The decimal time coordinate of a step: `year + (month - 1) / 12`. -/
def pointYear (year month : ℕ) : ℚ := (year : ℚ) + ((month : ℚ) - 1) / 12

/-- One month step of `generateData`: build the data point for `(year, month)`
over all airlines and return the updated `lastValues` map with it. -/
def stepPoint (airlines : List Airline) (rand : ℕ → ℚ) (n t year month : ℕ)
    (st : String → ℚ) : (String → ℚ) × DataPoint :=
  let res := stepAirlines rand n t year month airlines.enum st (fun _ => none)
  (res.1, { year := pointYear year month, values := res.2 })

/-- The `(year, month)` pairs visited by the two nested `forEach` loops, in
order: every listed year with months `1` to `12`. -/
def stepsList (years : List ℕ) : List (ℕ × ℕ) :=
  years.flatMap (fun y => (List.range 12).map (fun m => (y, m + 1)))

/-- Run the month steps in order, collecting the pushed data points.  Each
element of the step list is `(t, year, month)` with `t` the global index. -/
def runSteps (airlines : List Airline) (rand : ℕ → ℚ) (n : ℕ) :
    List (ℕ × ℕ × ℕ) → (String → ℚ) → List DataPoint
  | [], _ => []
  | s :: rest, st =>
      let pr := stepPoint airlines rand n s.1 s.2.1 s.2.2 st
      pr.2 :: runSteps airlines rand n rest pr.1

/-- Run the month steps only for their effect on the `lastValues` map. -/
def runState (airlines : List Airline) (rand : ℕ → ℚ) (n : ℕ) :
    List (ℕ × ℕ × ℕ) → (String → ℚ) → (String → ℚ)
  | [], st => st
  | s :: rest, st =>
      runState airlines rand n rest (stepPoint airlines rand n s.1 s.2.1 s.2.2 st).1

/-- Function `generateData` with the year list abstracted: the source fixes
`years = [2010 … 2024]`, and the spec contract exposes the year range as a
generation parameter; the loop body is that of the source. -/
def generateDataFrom (years : List ℕ) (airlines : List Airline) (rand : ℕ → ℚ) :
    List DataPoint :=
  runSteps airlines rand airlines.length (stepsList years).enum
    (initLastValues airlines rand)

/-- The list `Array.from, length 15, of 2010 + i` from the source. -/
def defaultYears : List ℕ := (List.range 15).map (fun i => 2010 + i)

/-- Function `generateData` from `src/App.tsx`: fifteen years of monthly samples. -/
def generateData (airlines : List Airline) (rand : ℕ → ℚ) : List DataPoint :=
  generateDataFrom defaultYears airlines rand

/-- The `lastValues` map after the first `t` month steps of the run. -/
def stateAfter (years : List ℕ) (airlines : List Airline) (rand : ℕ → ℚ)
    (t : ℕ) : String → ℚ :=
  runState airlines rand airlines.length ((stepsList years).enum.take t)
    (initLastValues airlines rand)

/-- The `(lastValue, perturbed value)` pairs observed by the inner loop body of
one month step, in airline order: for each airline the map entry read as
`lastValue` and the value `newValue` holds before any trend multiplier or
clamp is applied.  The state is threaded with the same `stepValue` update as
`stepAirlines`. -/
def stepTrace (rand : ℕ → ℚ) (n t year month : ℕ) :
    List (ℕ × Airline) → (String → ℚ) → List (ℚ × ℚ)
  | [], _ => []
  | p :: rest, st =>
      let r := rand (n + t * n + p.1)
      let lv := st p.2.code
      (lv, perturb r lv) ::
        stepTrace rand n t year month rest
          (updFn st p.2.code (stepValue p.2.group year month r lv))

/-- All `(lastValue, perturbed value)` pairs of a run, month step by month
step, threading the state exactly as `runSteps` does. -/
def runTrace (airlines : List Airline) (rand : ℕ → ℚ) (n : ℕ) :
    List (ℕ × ℕ × ℕ) → (String → ℚ) → List (ℚ × ℚ)
  | [], _ => []
  | s :: rest, st =>
      stepTrace rand n s.1 s.2.1 s.2.2 airlines.enum st
        ++ runTrace airlines rand n rest
            (stepPoint airlines rand n s.1 s.2.1 s.2.2 st).1

/-- The `(lastValue, perturbed value)` pairs of a whole generation run. -/
def perturbTrace (years : List ℕ) (airlines : List Airline) (rand : ℕ → ℚ) :
    List (ℚ × ℚ) :=
  runTrace airlines rand airlines.length (stepsList years).enum
    (initLastValues airlines rand)

/-- The React state of the chart component plus the `singleAirlineMode` prop
owned by `App`: hidden airline codes, hidden groups, hovered code, active
sample index. -/
structure AppState where
  singleAirlineMode : Bool
  hiddenItems : Finset String
  hiddenGroups : Finset AirlineGroup
  hoveredItem : Option String
  activeIndex : Option ℕ
deriving DecidableEq

/-- Function `toggleItem` from the source: flip membership of `code` in the
hidden-items set (copy the set, then `delete` or `add`). -/
def toggleItem (st : AppState) (code : String) : AppState :=
  { st with hiddenItems :=
      if code ∈ st.hiddenItems then st.hiddenItems.erase code
      else insert code st.hiddenItems }

/-- Function `toggleGroup` from the source: flip membership of `g` in the
hidden-groups set. -/
def toggleGroup (st : AppState) (g : AirlineGroup) : AppState :=
  { st with hiddenGroups :=
      if g ∈ st.hiddenGroups then st.hiddenGroups.erase g
      else insert g st.hiddenGroups }

/-- Setter `setHoveredItem` from the source (the `useState` setter). -/
def setHoveredItem (st : AppState) (h : Option String) : AppState :=
  { st with hoveredItem := h }

/-- Setter `setActiveIndex` from the source (the `useState` setter). -/
def setActiveIndex (st : AppState) (i : Option ℕ) : AppState :=
  { st with activeIndex := i }

/-- Function `isItemVisible` from the source: hidden when the group is hidden, else
hidden when the code is individually hidden, else visible. -/
def isItemVisible (st : AppState) (a : Airline) : Bool :=
  if a.group ∈ st.hiddenGroups then false
  else if a.code ∈ st.hiddenItems then false
  else true

/-- Function `getLineOpacity` from `src/App.tsx` (fade constant `0.08`). -/
def getLineOpacity (st : AppState) (a : Airline) : ℚ :=
  if a.group ∈ st.hiddenGroups then 0
  else if a.code ∈ st.hiddenItems then 0
  else if !st.singleAirlineMode then 1
  else match st.hoveredItem with
    | none => 1
    | some h => if h = a.code then 1 else 8 / 100

/-- Function `getLineWidth` from the source. -/
def getLineWidth (st : AppState) (a : Airline) : ℚ :=
  match st.hoveredItem with
  | some h => if h = a.code then 3 else 2
  | none => 2

/-- The `activeDot` condition of the visible `Line` in `src/App.tsx`: shown
when there is an active index and, in single mode, this airline is hovered,
or, in classic mode, this airline is visible. -/
def showActiveDot (st : AppState) (a : Airline) : Bool :=
  match st.activeIndex with
  | none => false
  | some _ =>
      if st.singleAirlineMode then st.hoveredItem == some a.code
      else isItemVisible st a

/-- The data content of what `CustomTooltip` renders: nothing, the
single-airline row, or the classic list of visible airlines. -/
inductive TooltipPayload where
  | none
  | single (code : String) (year : ℚ) (value : ℤ)
  | multi (year : ℚ) (entries : List (String × ℤ))
deriving DecidableEq

/-- The data logic of `CustomTooltip` (markup and styling stripped): bail out
on a missing active index or a missing data point; in single mode require a
hovered code found in the airline list and read `dataPoint[hoveredItem]`,
with `value?.toLocaleString() || 0` modelled as defaulting an undefined
lookup to `0`; in classic mode list the value of every visible airline at the
point, with the same defaulting. -/
def customTooltip (airlines : List Airline) (data : List DataPoint)
    (st : AppState) : TooltipPayload :=
  match st.activeIndex with
  | Option.none => TooltipPayload.none
  | some i =>
      match data[i]? with
      | Option.none => TooltipPayload.none
      | some dp =>
          if st.singleAirlineMode then
            match st.hoveredItem with
            | Option.none => TooltipPayload.none
            | some code =>
                match airlines.find? (fun a => a.code == code) with
                | Option.none => TooltipPayload.none
                | some _ => TooltipPayload.single code dp.year ((dp.values code).getD 0)
          else
            let visibleAirlines := airlines.filter (fun a => isItemVisible st a)
            if visibleAirlines.isEmpty then TooltipPayload.none
            else TooltipPayload.multi dp.year
              (visibleAirlines.map (fun a => (a.code, (dp.values a.code).getD 0)))

/-- The comparator of `sortedAirlines`: `1` if `a` is the hovered airline,
`-1` if `b` is, `0` otherwise (`a.code === hoveredItem` is false when the
hovered item is `null`). -/
def sortComparator (hoveredItem : Option String) (a b : Airline) : ℤ :=
  if some a.code = hoveredItem then 1
  else if some b.code = hoveredItem then -1
  else 0

/-- Function `sortedAirlines` from the source: `[...airlines].sort(comparator)`.
`Array.prototype.sort` is a stable sort (ES2019), embedded with the stable
`List.mergeSort`, ordering `a` before `b` when the comparator is `≤ 0`. -/
def sortedAirlines (airlines : List Airline) (hoveredItem : Option String) :
    List Airline :=
  airlines.mergeSort (fun a b => decide (sortComparator hoveredItem a b ≤ 0))

/-- Constant `throttleMs = 16` from the source. -/
def throttleMs : ℤ := 16

/-- The mutable data read and written by `handleMouseMove` in `src/App.tsx`:
`lastUpdateRef.current` and the active index. -/
structure MouseMoveState where
  lastUpdate : ℤ
  activeIndex : Option ℕ
deriving DecidableEq

/-- Handler `handleMouseMove` from `src/App.tsx`: drop the event if fewer than
`throttleMs` milliseconds elapsed since the last accepted update, else record
`now` and, when the event carries a defined `activeTooltipIndex`, store it.
A `null` recharts state and an undefined index both map to `none`. -/
def handleMouseMove (st : MouseMoveState) (now : ℤ)
    (activeTooltipIndex : Option ℕ) : MouseMoveState :=
  if now - st.lastUpdate < throttleMs then st
  else
    match activeTooltipIndex with
    | some i => { lastUpdate := now, activeIndex := some i }
    | Option.none => { lastUpdate := now, activeIndex := st.activeIndex }

/-- The chart data computed by the component: `useMemo` over `[airlines]`
only, so it is a function of the random stream and the mode prop with the
mode unused — the source never regenerates data on a mode change. -/
def componentData (rand : ℕ → ℚ) (_mode : Bool) : List DataPoint :=
  generateData generateAirlines rand

namespace Chart

/-- Initialization values of `generateData` in `src/components/LineChart.tsx`
(textually the same ranges as in `src/App.tsx`). -/
def initValue (g : AirlineGroup) (r : ℚ) : ℚ :=
  match g with
  | AirlineGroup.operating => r * 2000 + 2000
  | AirlineGroup.discontinued => r * 1500 + 1000

/-- The `0.08` of `const maxVariation = lastValue * 0.08` in
`src/components/LineChart.tsx`. -/
def maxVariationFraction : ℚ := 8 / 100

/-- The perturbation step of `src/components/LineChart.tsx`. -/
def perturb (r lastValue : ℚ) : ℚ :=
  lastValue + (r - 1 / 2) * 2 * (lastValue * Chart.maxVariationFraction)

/-- The trend multipliers of `src/components/LineChart.tsx`. -/
def applyTrends (g : AirlineGroup) (year month : ℕ) (v : ℚ) : ℚ :=
  match g with
  | AirlineGroup.operating =>
      let v1 := if year = 2020 ∧ 3 ≤ month ∧ month ≤ 6 then v * (85 / 100) else v
      if year = 2021 ∨ (year = 2022 ∧ month ≤ 6) then v1 * (102 / 100) else v1
  | AirlineGroup.discontinued =>
      let v1 := if 2015 < year then v * (997 / 1000) else v
      if 2018 < year then v1 * (995 / 1000) else v1

/-- The clamp of `src/components/LineChart.tsx`. -/
def clampBand (g : AirlineGroup) (v : ℚ) : ℚ :=
  match g with
  | AirlineGroup.operating => max 800 (min 5500 v)
  | AirlineGroup.discontinued => max 100 (min 3500 v)

/-- The whole step of one airline in `src/components/LineChart.tsx`. -/
def stepValue (g : AirlineGroup) (year month : ℕ) (r lastValue : ℚ) : ℚ :=
  Chart.clampBand g (Chart.applyTrends g year month (Chart.perturb r lastValue))

/-- The initialization loop of `src/components/LineChart.tsx`. -/
def initLastValues (airlines : List Airline) (rand : ℕ → ℚ) : String → ℚ :=
  (airlines.enum).foldl
    (fun st p => updFn st p.2.code (Chart.initValue p.2.group (rand p.1))) (fun _ => 0)

/-- The inner month-step loop of `src/components/LineChart.tsx`. -/
def stepAirlines (rand : ℕ → ℚ) (n t year month : ℕ) :
    List (ℕ × Airline) → (String → ℚ) → (String → Option ℤ) →
    (String → ℚ) × (String → Option ℤ)
  | [], st, vals => (st, vals)
  | p :: rest, st, vals =>
      let r := rand (n + t * n + p.1)
      let nv := Chart.stepValue p.2.group year month r (st p.2.code)
      Chart.stepAirlines rand n t year month rest
        (updFn st p.2.code nv) (updVals vals p.2.code (jsRound nv))

/-- One month step of `src/components/LineChart.tsx`. -/
def stepPoint (airlines : List Airline) (rand : ℕ → ℚ) (n t year month : ℕ)
    (st : String → ℚ) : (String → ℚ) × DataPoint :=
  let res := Chart.stepAirlines rand n t year month airlines.enum st (fun _ => none)
  (res.1, { year := pointYear year month, values := res.2 })

/-- The `(year, month)` pairs of the nested loops of
`src/components/LineChart.tsx`. -/
def stepsList (years : List ℕ) : List (ℕ × ℕ) :=
  years.flatMap (fun y => (List.range 12).map (fun m => (y, m + 1)))

/-- The outer loop of `src/components/LineChart.tsx`. -/
def runSteps (airlines : List Airline) (rand : ℕ → ℚ) (n : ℕ) :
    List (ℕ × ℕ × ℕ) → (String → ℚ) → List DataPoint
  | [], _ => []
  | s :: rest, st =>
      let pr := Chart.stepPoint airlines rand n s.1 s.2.1 s.2.2 st
      pr.2 :: Chart.runSteps airlines rand n rest pr.1

/-- Function `generateData` of `src/components/LineChart.tsx`, year list abstracted. -/
def generateDataFrom (years : List ℕ) (airlines : List Airline) (rand : ℕ → ℚ) :
    List DataPoint :=
  Chart.runSteps airlines rand airlines.length (Chart.stepsList years).enum
    (Chart.initLastValues airlines rand)

/-- The year list, 2010 through 2024, in
`src/components/LineChart.tsx`. -/
def defaultYears : List ℕ := (List.range 15).map (fun i => 2010 + i)

/-- Function `generateData` from `src/components/LineChart.tsx`. -/
def generateData (airlines : List Airline) (rand : ℕ → ℚ) : List DataPoint :=
  Chart.generateDataFrom Chart.defaultYears airlines rand

/-- Handler `handleMouseMove` from `src/components/LineChart.tsx`: no throttling —
every event carrying a defined `activeTooltipIndex` replaces the active
index. -/
def handleMouseMove (activeIndex : Option ℕ) (activeTooltipIndex : Option ℕ) :
    Option ℕ :=
  match activeTooltipIndex with
  | some i => some i
  | Option.none => activeIndex

end Chart

/-- Pointwise nonnegativity of a `lastValues` map: every key holds a
nonnegative value.  Holds for every map reachable in a generation run. -/
def StNonneg (st : String → ℚ) : Prop := ∀ c, 0 ≤ st c

/-- An operating airline used to exhibit concrete runs. -/
def c3Airline : Airline :=
  { code := "LX", name := "Airline LX", color := "#1f77b4",
    group := AirlineGroup.operating }

/-- A one-airline catalog used to exhibit concrete runs. -/
def c3Airlines : List Airline := [c3Airline]

/-- A constant injected random source returning `0.3`. -/
def c3Rand : ℕ → ℚ := fun _ => 3 / 10

/-- The spec scenario catalog: two operating and two discontinued airlines. -/
def c9Airlines : List Airline :=
  [{ code := "P1", name := "Airline P1", color := "#1f77b4",
     group := AirlineGroup.operating },
   { code := "P2", name := "Airline P2", color := "#2ca02c",
     group := AirlineGroup.operating },
   { code := "D1", name := "Airline D1", color := "#aec7e8",
     group := AirlineGroup.discontinued },
   { code := "D2", name := "Airline D2", color := "#98df8a",
     group := AirlineGroup.discontinued }]

/-- A constant injected random source returning `0.5` (zero perturbation). -/
def c9Rand : ℕ → ℚ := fun _ => 1 / 2

/-- The airline used by the tooltip witness. -/
def c5Airline : Airline :=
  { code := "LX", name := "Airline LX", color := "#1f77b4",
    group := AirlineGroup.operating }

/-- A one-point matrix used by the tooltip witness. -/
def c5Data : List DataPoint :=
  [{ year := 2010, values := fun s => if s = "LX" then some 5 else Option.none }]

/-- A single-mode state hovering `"LX"` at active index `0`. -/
def c5State : AppState :=
  { singleAirlineMode := true, hiddenItems := ∅, hiddenGroups := ∅,
    hoveredItem := some "LX", activeIndex := some 0 }

/-- An empty-sets state used by the visibility witness. -/
def c4State : AppState :=
  { singleAirlineMode := true, hiddenItems := ∅, hiddenGroups := ∅,
    hoveredItem := Option.none, activeIndex := Option.none }

/-- A discontinued airline used by the visibility witness. -/
def c4Airline : Airline :=
  { code := "CX", name := "Airline CX", color := "#aec7e8",
    group := AirlineGroup.discontinued }

/-- The airline catalog as the explicit list literal it evaluates to. -/
def catalogList : List Airline :=
  [{ code := "LX", name := "Airline LX", color := "#1f77b4", group := AirlineGroup.operating },
   { code := "BA", name := "Airline BA", color := "#2ca02c", group := AirlineGroup.operating },
   { code := "AF", name := "Airline AF", color := "#ff7f0e", group := AirlineGroup.operating },
   { code := "LH", name := "Airline LH", color := "#d62728", group := AirlineGroup.operating },
   { code := "KL", name := "Airline KL", color := "#9467bd", group := AirlineGroup.operating },
   { code := "IB", name := "Airline IB", color := "#8c564b", group := AirlineGroup.operating },
   { code := "CX", name := "Airline CX", color := "#aec7e8", group := AirlineGroup.discontinued },
   { code := "LZ", name := "Airline LZ", color := "#98df8a", group := AirlineGroup.discontinued },
   { code := "C3", name := "Airline C3", color := "#ffbb78", group := AirlineGroup.discontinued },
   { code := "UL", name := "Airline UL", color := "#ff9896", group := AirlineGroup.discontinued },
   { code := "AA", name := "Airline AA", color := "#c5b0d5", group := AirlineGroup.discontinued },
   { code := "DL", name := "Airline DL", color := "#c49c94", group := AirlineGroup.discontinued }]

/-- C4: a series is visible iff its group is not hidden and its code is not
individually hidden; `toggleGroup` never mutates the hidden-items set; hiding
the discontinued group and then toggling one discontinued series individually
leaves that series invisible. -/
theorem visibility_independent_of_sets (st : AppState) (a : Airline) :
    (isItemVisible st a = true ↔
      (a.group ∉ st.hiddenGroups ∧ a.code ∉ st.hiddenItems)) ∧
    (∀ g, (toggleGroup st g).hiddenItems = st.hiddenItems) ∧
    (a.group = AirlineGroup.discontinued →
      AirlineGroup.discontinued ∉ st.hiddenGroups →
      isItemVisible (toggleItem (toggleGroup st AirlineGroup.discontinued) a.code) a
        = false) := by
  refine ⟨?_, fun g => rfl, ?_⟩
  · unfold isItemVisible
    by_cases h1 : a.group ∈ st.hiddenGroups <;>
      by_cases h2 : a.code ∈ st.hiddenItems <;> simp [h1, h2]
  · intro hgrp hnm
    unfold isItemVisible toggleItem toggleGroup
    simp [hnm, hgrp]

/-- Witness for C4 at a concrete state and airline. -/
theorem visibility_independent_of_sets_witness :
    (isItemVisible c4State c4Airline = true ↔
      (c4Airline.group ∉ c4State.hiddenGroups ∧
        c4Airline.code ∉ c4State.hiddenItems)) ∧
    (∀ g, (toggleGroup c4State g).hiddenItems = c4State.hiddenItems) ∧
    (c4Airline.group = AirlineGroup.discontinued →
      AirlineGroup.discontinued ∉ c4State.hiddenGroups →
      isItemVisible (toggleItem (toggleGroup c4State AirlineGroup.discontinued)
        c4Airline.code) c4Airline = false) :=
  visibility_independent_of_sets c4State c4Airline

/-- C7: flipping the `singleAirlineMode` flag commutes with all four
state-mutating operations (none of them reads or writes the flag), leaves
`isItemVisible` unchanged, and the generated matrix does not depend on the
mode prop. -/
theorem mode_flip_frame (st : AppState) (m : Bool) (code : String)
    (g : AirlineGroup) (h : Option String) (i : Option ℕ) (a : Airline)
    (rand : ℕ → ℚ) (m1 m2 : Bool) :
    toggleItem { st with singleAirlineMode := m } code
      = { toggleItem st code with singleAirlineMode := m } ∧
    toggleGroup { st with singleAirlineMode := m } g
      = { toggleGroup st g with singleAirlineMode := m } ∧
    setHoveredItem { st with singleAirlineMode := m } h
      = { setHoveredItem st h with singleAirlineMode := m } ∧
    setActiveIndex { st with singleAirlineMode := m } i
      = { setActiveIndex st i with singleAirlineMode := m } ∧
    isItemVisible { st with singleAirlineMode := m } a = isItemVisible st a ∧
    componentData rand m1 = componentData rand m2 :=
  ⟨rfl, rfl, rfl, rfl, rfl, rfl⟩

/-- C8 (amended, the handler of `src/App.tsx`): an event arriving less than
16ms after the last accepted update leaves the state untouched; an event
arriving at or after the interval records its time and stores the reported
index. -/
theorem mousemove_throttled (st : MouseMoveState) (now : ℤ) (idx : Option ℕ) :
    (now - st.lastUpdate < throttleMs → handleMouseMove st now idx = st) ∧
    (throttleMs ≤ now - st.lastUpdate →
      (handleMouseMove st now idx).lastUpdate = now ∧
      ∀ i, idx = some i → (handleMouseMove st now idx).activeIndex = some i) := by
  constructor
  · intro hlt
    unfold handleMouseMove
    rw [if_pos hlt]
  · intro hge
    unfold handleMouseMove
    rw [if_neg (not_lt.2 hge)]
    cases idx with
    | none => exact ⟨rfl, fun i hi => nomatch hi⟩
    | some j => exact ⟨rfl, fun i hi => hi⟩

/-- Witness for the amended claim of C8: at 20ms after an update at 0, the reported
index 3 is accepted. -/
theorem mousemove_throttled_witness :
    (handleMouseMove { lastUpdate := 0, activeIndex := some 0 } 20 (some 3)).lastUpdate
      = 20 ∧
    (handleMouseMove { lastUpdate := 0, activeIndex := some 0 } 20 (some 3)).activeIndex
      = some 3 := by
  have h := (mousemove_throttled { lastUpdate := 0, activeIndex := some 0 } 20
    (some 3)).2 (by decide)
  exact ⟨h.1, h.2 3 rfl⟩

/-- C8 counterexample: the near-duplicate handler in
`src/components/LineChart.tsx` has no throttle — whatever the elapsed time
since the previous update (in particular less than 16ms), a move event
carrying index 3 replaces the active index instead of being dropped. -/
theorem lc_mousemove_unthrottled_cx :
    Chart.handleMouseMove (some 0) (some 3) = some 3 ∧
    some 3 ≠ (some 0 : Option ℕ) :=
  ⟨rfl, by decide⟩

/-- The local smoothness bound: for any random draw in `[0, 1]` and any
nonnegative last value, the perturbed value moves by at most the variation
fraction of the last value. -/
theorem perturb_abs_sub_le (r lv : ℚ) (hr0 : 0 ≤ r) (hr1 : r ≤ 1) (hlv : 0 ≤ lv) :
    |perturb r lv - lv| ≤ maxVariationFraction * lv := by
  have hmv : maxVariationFraction = 8 / 100 := rfl
  have h : perturb r lv - lv = (r - 1 / 2) * (2 * (lv * maxVariationFraction)) := by
    unfold perturb; ring
  rw [h, abs_mul]
  have h2 : |r - 1 / 2| ≤ 1 / 2 := by
    rw [abs_le]; constructor <;> linarith
  have hnn : (0 : ℚ) ≤ 2 * (lv * maxVariationFraction) := by
    rw [hmv]; nlinarith
  rw [abs_of_nonneg hnn]
  calc |r - 1 / 2| * (2 * (lv * maxVariationFraction))
      ≤ 1 / 2 * (2 * (lv * maxVariationFraction)) :=
        mul_le_mul_of_nonneg_right h2 hnn
    _ = maxVariationFraction * lv := by ring

/-- The clamp lands in the group band. -/
theorem clampBand_mem_band (g : AirlineGroup) (v : ℚ) :
    (bandLo g : ℚ) ≤ clampBand g v ∧ clampBand g v ≤ (bandHi g : ℚ) := by
  cases g <;> simp only [clampBand, bandLo, bandHi] <;> push_cast <;>
    exact ⟨le_max_left _ _, max_le (by norm_num) (min_le_left _ _)⟩

/-- The clamp output is nonnegative. -/
theorem clampBand_nonneg (g : AirlineGroup) (v : ℚ) : 0 ≤ clampBand g v := by
  refine le_trans ?_ (clampBand_mem_band g v).1
  cases g <;> norm_num [bandLo]

/-- The output of a whole step is nonnegative. -/
theorem stepValue_nonneg (g : AirlineGroup) (y m : ℕ) (r lv : ℚ) :
    0 ≤ stepValue g y m r lv :=
  clampBand_nonneg g _

/-- Initial values drawn from a nonnegative random value are nonnegative. -/
theorem initValue_nonneg (g : AirlineGroup) (r : ℚ) (hr : 0 ≤ r) :
    0 ≤ initValue g r := by
  cases g <;> simp only [initValue] <;> nlinarith

/-- A key override with a nonnegative value preserves `StNonneg`. -/
theorem updFn_nonneg (st : String → ℚ) (k : String) (v : ℚ)
    (hst : StNonneg st) (hv : 0 ≤ v) : StNonneg (updFn st k v) := by
  intro c
  unfold updFn
  split
  · exact hv
  · exact hst c

/-- The initial `lastValues` map of a run is pointwise nonnegative whenever
the random source stays nonnegative. -/
theorem initLastValues_nonneg (airlines : List Airline) (rand : ℕ → ℚ)
    (hr : ∀ k, 0 ≤ rand k) : StNonneg (initLastValues airlines rand) := by
  unfold initLastValues
  have : ∀ (l : List (ℕ × Airline)) (st : String → ℚ), StNonneg st →
      StNonneg (l.foldl
        (fun st p => updFn st p.2.code (initValue p.2.group (rand p.1))) st) := by
    intro l
    induction l with
    | nil => exact fun st h => h
    | cons p rest ih =>
        intro st h
        exact ih _ (updFn_nonneg _ _ _ h (initValue_nonneg _ _ (hr _)))
  exact this _ _ (fun c => le_refl 0)

/-- The `lastValues` map stays pointwise nonnegative across the inner loop. -/
theorem stepAirlines_fst_nonneg (rand : ℕ → ℚ) (n t y m : ℕ) :
    ∀ (l : List (ℕ × Airline)) (st : String → ℚ) (vals : String → Option ℤ),
      StNonneg st → StNonneg (stepAirlines rand n t y m l st vals).1 := by
  intro l
  induction l with
  | nil => exact fun st vals h => h
  | cons p rest ih =>
      intro st vals h
      exact ih _ _ (updFn_nonneg _ _ _ h (stepValue_nonneg _ _ _ _ _))

/-- Every `(lastValue, perturbed)` pair recorded inside one month step obeys
the smoothness bound, given a `[0, 1]` random source and a nonnegative state. -/
theorem stepTrace_bound (rand : ℕ → ℚ) (n t y m : ℕ)
    (hr : ∀ k, 0 ≤ rand k ∧ rand k ≤ 1) :
    ∀ (l : List (ℕ × Airline)) (st : String → ℚ), StNonneg st →
      ∀ pr ∈ stepTrace rand n t y m l st,
        |pr.2 - pr.1| ≤ maxVariationFraction * pr.1 := by
  intro l
  induction l with
  | nil => intro st hst pr hpr; cases hpr
  | cons p rest ih =>
      intro st hst pr hpr
      rw [stepTrace, List.mem_cons] at hpr
      rcases hpr with h | h
      · subst h
        exact perturb_abs_sub_le _ _ (hr _).1 (hr _).2 (hst _)
      · exact ih _ (updFn_nonneg _ _ _ hst (stepValue_nonneg _ _ _ _ _)) pr h

/-- Every `(lastValue, perturbed)` pair recorded across the whole run obeys
the smoothness bound, given a `[0, 1]` random source and a nonnegative
starting state. -/
theorem runTrace_bound (airlines : List Airline) (rand : ℕ → ℚ) (n : ℕ)
    (hr : ∀ k, 0 ≤ rand k ∧ rand k ≤ 1) :
    ∀ (steps : List (ℕ × ℕ × ℕ)) (st : String → ℚ), StNonneg st →
      ∀ pr ∈ runTrace airlines rand n steps st,
        |pr.2 - pr.1| ≤ maxVariationFraction * pr.1 := by
  intro steps
  induction steps with
  | nil => intro st hst pr hpr; cases hpr
  | cons s rest ih =>
      intro st hst pr hpr
      rw [runTrace, List.mem_append] at hpr
      rcases hpr with h | h
      · exact stepTrace_bound rand n s.1 s.2.1 s.2.2 hr _ st hst pr h
      · refine ih _ ?_ pr h
        exact stepAirlines_fst_nonneg rand n s.1 s.2.1 s.2.2 _ st _ hst

/-- C1: for every series and every month step of a run fed by random values
in `[0, 1]`, the perturbed value computed before any trend multiplier or
clamp differs from the stored last value it was derived from by at most
`maxVariationFraction` (0.08) times that last value. -/
theorem perturbation_within_fraction_of_last (years : List ℕ)
    (airlines : List Airline) (rand : ℕ → ℚ)
    (hr : ∀ k, 0 ≤ rand k ∧ rand k ≤ 1) :
    ∀ pr ∈ perturbTrace years airlines rand,
      |pr.2 - pr.1| ≤ maxVariationFraction * pr.1 := by
  unfold perturbTrace
  exact runTrace_bound airlines rand airlines.length hr _ _
    (initLastValues_nonneg airlines rand (fun k => (hr k).1))

/-- The trace of the constant 0.5 source on the one-airline catalog starts
with the pair (3000, 3000). -/
theorem perturbTrace_c3_head :
    ((3000 : ℚ), (3000 : ℚ)) ∈ perturbTrace [2010] c3Airlines (fun _ => 1 / 2) := by
  have hsteps : (stepsList [2010]).enum
      = (0, 2010, 1) :: ((stepsList [2010]).enum.drop 1) := by decide
  have henum : c3Airlines.enum
      = [(0, { code := "LX", name := "Airline LX", color := "#1f77b4",
               group := AirlineGroup.operating })] := by decide
  have hinit : (initLastValues c3Airlines (fun _ => 1 / 2)) "LX" = 3000 := by
    rw [initLastValues, henum]
    simp only [List.foldl_cons, List.foldl_nil, updFn, initValue]
    norm_num
  unfold perturbTrace
  rw [hsteps, runTrace, henum, stepTrace, stepTrace]
  refine List.mem_append_left _ ?_
  have hp : perturb (1 / 2) 3000 = 3000 := by
    unfold perturb maxVariationFraction; norm_num
  simp only [hinit, List.mem_cons]
  exact Or.inl (by rw [hp])

/-- Witness for C1: the pair (3000, 3000) of that trace satisfies the bound. -/
theorem perturbation_within_fraction_of_last_witness :
    |((3000 : ℚ), (3000 : ℚ)).2 - ((3000 : ℚ), (3000 : ℚ)).1|
      ≤ maxVariationFraction * ((3000 : ℚ), (3000 : ℚ)).1 :=
  perturbation_within_fraction_of_last [2010] c3Airlines (fun _ => 1 / 2)
    (fun k => ⟨by norm_num, by norm_num⟩) _ perturbTrace_c3_head

/-- Keys not written by the inner loop keep their state and data-point
entries. -/
theorem stepAirlines_not_mem (rand : ℕ → ℚ) (n t y m : ℕ) :
    ∀ (l : List (ℕ × Airline)) (st : String → ℚ) (vals : String → Option ℤ)
      (c : String), c ∉ l.map (fun q => q.2.code) →
      (stepAirlines rand n t y m l st vals).1 c = st c ∧
      (stepAirlines rand n t y m l st vals).2 c = vals c := by
  intro l
  induction l with
  | nil => exact fun st vals c h => ⟨rfl, rfl⟩
  | cons p rest ih =>
      intro st vals c h
      rw [List.map_cons, List.mem_cons] at h
      push_neg at h
      obtain ⟨h1, h2⟩ := h
      rw [stepAirlines]
      obtain ⟨ha, hb⟩ := ih _ _ c h2
      refine ⟨ha.trans ?_, hb.trans ?_⟩
      · unfold updFn
        simp [h1]
      · unfold updVals
        simp [h1]

/-- Characterization of the inner loop at an airline of the list, for
duplicate-free codes: its state entry ends as its step value read from the
incoming state, and its data-point entry as the rounding of that value. -/
theorem stepAirlines_mem (rand : ℕ → ℚ) (n t y m : ℕ) :
    ∀ (l : List (ℕ × Airline)) (st : String → ℚ) (vals : String → Option ℤ)
      (p : ℕ × Airline), (l.map (fun q => q.2.code)).Nodup → p ∈ l →
      (stepAirlines rand n t y m l st vals).1 p.2.code
        = stepValue p.2.group y m (rand (n + t * n + p.1)) (st p.2.code) ∧
      (stepAirlines rand n t y m l st vals).2 p.2.code
        = some (jsRound (stepValue p.2.group y m (rand (n + t * n + p.1))
            (st p.2.code))) := by
  intro l
  induction l with
  | nil => intro st vals p hnd hp; cases hp
  | cons q rest ih =>
      intro st vals p hnd hp
      rw [List.map_cons, List.nodup_cons] at hnd
      obtain ⟨hq, hrest⟩ := hnd
      rw [List.mem_cons] at hp
      rcases hp with h | h
      · subst h
        rw [stepAirlines]
        obtain ⟨ha, hb⟩ := stepAirlines_not_mem rand n t y m rest
          (updFn st p.2.code (stepValue p.2.group y m (rand (n + t * n + p.1))
            (st p.2.code)))
          (updVals vals p.2.code (jsRound (stepValue p.2.group y m
            (rand (n + t * n + p.1)) (st p.2.code)))) p.2.code hq
        refine ⟨ha.trans ?_, hb.trans ?_⟩
        · unfold updFn; simp
        · unfold updVals; simp
      · have hne : p.2.code ≠ q.2.code := by
          intro hc
          exact hq (hc ▸ List.mem_map.2 ⟨p, h, rfl⟩)
        rw [stepAirlines]
        obtain ⟨ha, hb⟩ := ih (updFn st q.2.code _) (updVals vals q.2.code _) p hrest h
        have hread : updFn st q.2.code (stepValue q.2.group y m
            (rand (n + t * n + q.1)) (st q.2.code)) p.2.code = st p.2.code := by
          unfold updFn; simp [hne]
        rw [ha, hb, hread]
        exact ⟨rfl, rfl⟩

/-- The run produces exactly one data point per month step. -/
theorem runSteps_length (airlines : List Airline) (rand : ℕ → ℚ) (n : ℕ) :
    ∀ (steps : List (ℕ × ℕ × ℕ)) (st : String → ℚ),
      (runSteps airlines rand n steps st).length = steps.length := by
  intro steps
  induction steps with
  | nil => exact fun st => rfl
  | cons s rest ih => intro st; rw [runSteps]; simp [ih]

/-- The enumerated airline codes are the airline codes. -/
theorem enum_codes (airlines : List Airline) :
    airlines.enum.map (fun q => q.2.code) = airlines.map Airline.code := by
  rw [show (fun q : ℕ × Airline => q.2.code)
      = (Airline.code ∘ Prod.snd) from rfl, ← List.map_map, List.enum_map_snd]

/-- Every airline of the catalog appears in the enumeration with some
position. -/
theorem exists_enum_position (airlines : List Airline) (a : Airline)
    (ha : a ∈ airlines) : ∃ j, (j, a) ∈ airlines.enum := by
  have h : a ∈ airlines.enum.map Prod.snd := by
    rw [List.enum_map_snd]; exact ha
  obtain ⟨p, hp, hsnd⟩ := List.mem_map.1 h
  refine ⟨p.1, ?_⟩
  have : (p.1, a) = p := by
    rw [← hsnd]
  rwa [this]

/-- Core run lemma: for duplicate-free codes, the sample stored for an
airline at step `t` is the rounding of the `lastValues` entry left after the
first `t + 1` steps, and that entry is a clamp output, hence in its group
band. -/
theorem runSteps_getD (airlines : List Airline) (rand : ℕ → ℚ) (n : ℕ)
    (hnd : (airlines.map Airline.code).Nodup) (p : ℕ × Airline)
    (hp : p ∈ airlines.enum) :
    ∀ (steps : List (ℕ × ℕ × ℕ)) (st : String → ℚ) (t : ℕ), t < steps.length →
      ((runSteps airlines rand n steps st).getD t defaultDataPoint).values p.2.code
        = some (jsRound ((runState airlines rand n (steps.take (t + 1)) st)
            p.2.code)) ∧
      (bandLo p.2.group : ℚ)
        ≤ (runState airlines rand n (steps.take (t + 1)) st) p.2.code ∧
      (runState airlines rand n (steps.take (t + 1)) st) p.2.code
        ≤ (bandHi p.2.group : ℚ) := by
  have hnd2 : (airlines.enum.map (fun q => q.2.code)).Nodup := by
    rw [enum_codes]; exact hnd
  intro steps
  induction steps with
  | nil => intro st t ht; cases ht
  | cons s rest ih =>
      intro st t ht
      match t with
      | 0 =>
          rw [List.take_succ_cons, List.take_zero, runState, runState, runSteps]
          obtain ⟨ha, hb⟩ := stepAirlines_mem rand n s.1 s.2.1 s.2.2 airlines.enum
            st (fun _ => none) p hnd2 hp
          have hstv : (stepPoint airlines rand n s.1 s.2.1 s.2.2 st).1 p.2.code
              = stepValue p.2.group s.2.1 s.2.2 (rand (n + s.1 * n + p.1))
                  (st p.2.code) := ha
          have hdp : (stepPoint airlines rand n s.1 s.2.1 s.2.2 st).2.values p.2.code
              = some (jsRound (stepValue p.2.group s.2.1 s.2.2
                  (rand (n + s.1 * n + p.1)) (st p.2.code))) := hb
          refine ⟨?_, ?_, ?_⟩
          · simpa [List.getD, hstv] using hdp
          · rw [hstv]; exact (clampBand_mem_band _ _).1
          · rw [hstv]; exact (clampBand_mem_band _ _).2
      | Nat.succ t' =>
          rw [List.take_succ_cons, runState, runSteps]
          have ht' : t' < rest.length := by simpa using ht
          have h := ih (stepPoint airlines rand n s.1 s.2.1 s.2.2 st).1 t' ht'
          simpa [List.getD] using h

/-- Rounding keeps integer bounds: if `lo ≤ q ≤ hi` with integer endpoints,
then `lo ≤ ⌊q + 1/2⌋ ≤ hi`. -/
theorem jsRound_mem (lo hi : ℤ) (q : ℚ) (h1 : (lo : ℚ) ≤ q) (h2 : q ≤ (hi : ℚ)) :
    lo ≤ jsRound q ∧ jsRound q ≤ hi := by
  unfold jsRound
  constructor
  · rw [Int.le_floor]
    linarith
  · have h : (⌊q + 1 / 2⌋ : ℤ) < hi + 1 := by
      rw [Int.floor_lt]
      push_cast
      linarith
    omega

/-- C2: for a duplicate-free catalog, every stored sample value of every
series lies inside the band of its group — `[800, 5500]` for operating and
`[100, 3500]` for discontinued — and the rational value the clamp leaves in
`lastValues` (the one carried into the next step) is inside the band as
well, for every random sequence whatsoever. -/
theorem sample_values_within_band (years : List ℕ) (airlines : List Airline)
    (rand : ℕ → ℚ) (hnd : (airlines.map Airline.code).Nodup) (a : Airline)
    (ha : a ∈ airlines) (t : ℕ)
    (ht : t < (generateDataFrom years airlines rand).length) :
    ((bandLo a.group : ℚ) ≤ stateAfter years airlines rand (t + 1) a.code ∧
      stateAfter years airlines rand (t + 1) a.code ≤ (bandHi a.group : ℚ)) ∧
    ∃ v : ℤ,
      ((generateDataFrom years airlines rand).getD t defaultDataPoint).values a.code
        = some v ∧ bandLo a.group ≤ v ∧ v ≤ bandHi a.group := by
  obtain ⟨j, hj⟩ := exists_enum_position airlines a ha
  have ht2 : t < ((stepsList years).enum).length := by
    rw [generateDataFrom, runSteps_length] at ht
    exact ht
  have h := runSteps_getD airlines rand airlines.length hnd (j, a) hj
    ((stepsList years).enum) (initLastValues airlines rand) t ht2
  obtain ⟨hv, hlo, hhi⟩ := h
  have hlo2 : (bandLo a.group : ℚ) ≤ stateAfter years airlines rand (t + 1) a.code :=
    hlo
  have hhi2 : stateAfter years airlines rand (t + 1) a.code ≤ (bandHi a.group : ℚ) :=
    hhi
  have hv2 : ((generateDataFrom years airlines rand).getD t defaultDataPoint).values
      a.code = some (jsRound (stateAfter years airlines rand (t + 1) a.code)) := hv
  exact ⟨⟨hlo2, hhi2⟩,
    jsRound (stateAfter years airlines rand (t + 1) a.code), hv2,
    (jsRound_mem _ _ _ hlo2 hhi2).1, (jsRound_mem _ _ _ hlo2 hhi2).2⟩

/-- Witness for C2 on the four-airline scenario catalog, constant source. -/
theorem sample_values_within_band_witness :
    ((bandLo AirlineGroup.operating : ℚ)
        ≤ stateAfter [2010] c9Airlines c9Rand 1 "P1" ∧
      stateAfter [2010] c9Airlines c9Rand 1 "P1"
        ≤ (bandHi AirlineGroup.operating : ℚ)) ∧
    ∃ v : ℤ,
      ((generateDataFrom [2010] c9Airlines c9Rand).getD 0 defaultDataPoint).values "P1"
        = some v ∧ bandLo AirlineGroup.operating ≤ v ∧
        v ≤ bandHi AirlineGroup.operating :=
  sample_values_within_band [2010] c9Airlines c9Rand (by decide)
    { code := "P1", name := "Airline P1", color := "#1f77b4",
      group := AirlineGroup.operating } (by decide) 0 (by decide)

/-- C3 (amended): the sample an airline gets at step `t` is the rounding of
the `lastValues` entry left after step `t`; the entry itself remains the
unrounded clamped value. -/
theorem sample_eq_round_of_stored_last (years : List ℕ)
    (airlines : List Airline) (rand : ℕ → ℚ)
    (hnd : (airlines.map Airline.code).Nodup) (a : Airline) (ha : a ∈ airlines)
    (t : ℕ) (ht : t < (generateDataFrom years airlines rand).length) :
    ((generateDataFrom years airlines rand).getD t defaultDataPoint).values a.code
      = some (jsRound (stateAfter years airlines rand (t + 1) a.code)) := by
  obtain ⟨j, hj⟩ := exists_enum_position airlines a ha
  have ht2 : t < ((stepsList years).enum).length := by
    rw [generateDataFrom, runSteps_length] at ht
    exact ht
  exact (runSteps_getD airlines rand airlines.length hnd (j, a) hj
    ((stepsList years).enum) (initLastValues airlines rand) t ht2).1

/-- Witness for the amended claim of C3 on the one-airline catalog. -/
theorem sample_eq_round_of_stored_last_witness :
    ((generateDataFrom [2010] c3Airlines c3Rand).getD 0 defaultDataPoint).values "LX"
      = some (jsRound (stateAfter [2010] c3Airlines c3Rand 1 "LX")) :=
  sample_eq_round_of_stored_last [2010] c3Airlines c3Rand (by decide)
    { code := "LX", name := "Airline LX", color := "#1f77b4",
      group := AirlineGroup.operating } (by decide) 0 (by decide)

/-- C3 counterexample: with the one-airline catalog and the constant 0.3
source, after the first step `lastValues` holds the unrounded clamped value
2516.8 = 12584/5, while the sample stored for the step is its rounding 2517:
the rounded integer is stored only in the data point, never in the map of
last values. -/
theorem stored_last_value_unrounded_cx :
    stateAfter [2010] c3Airlines c3Rand 1 "LX" = 12584 / 5 ∧
    ((generateDataFrom [2010] c3Airlines c3Rand).getD 0 defaultDataPoint).values "LX"
      = some 2517 ∧
    ((2517 : ℤ) : ℚ) ≠ 12584 / 5 := by
  have htake : ((stepsList [2010]).enum).take 1 = [(0, 2010, 1)] := by decide
  have henum : c3Airlines.enum = [(0, c3Airline)] := by decide
  have hinit : initLastValues c3Airlines c3Rand "LX" = 2600 := by
    rw [initLastValues, henum]
    simp only [List.foldl_cons, List.foldl_nil, updFn, initValue, c3Airline]
    norm_num [c3Rand]
  have hstate : stateAfter [2010] c3Airlines c3Rand 1 "LX" = 12584 / 5 := by
    rw [stateAfter, htake, runState, runState]
    simp only [stepPoint, henum, stepAirlines, updFn, hinit, c3Airline, c3Rand,
      if_true]
    simp only [stepValue]
    have hp : perturb (3 / 10) 2600 = 12584 / 5 := by
      unfold perturb maxVariationFraction
      norm_num
    have ht : applyTrends AirlineGroup.operating 2010 1 (12584 / 5) = 12584 / 5 := by
      simp only [applyTrends]
      norm_num
    simp only [hp, ht, clampBand]
    rw [min_eq_right (by norm_num), max_eq_right (by norm_num)]
  have hsample : ((generateDataFrom [2010] c3Airlines c3Rand).getD 0
      defaultDataPoint).values "LX"
      = some (jsRound (stateAfter [2010] c3Airlines c3Rand 1 "LX")) :=
    (runSteps_getD c3Airlines c3Rand c3Airlines.length (by decide) (0, c3Airline)
      (by decide) ((stepsList [2010]).enum) (initLastValues c3Airlines c3Rand)
      0 (by decide)).1
  rw [hstate] at hsample
  have hround : jsRound (12584 / 5) = 2517 := by
    unfold jsRound
    norm_num [Int.floor_eq_iff]
  rw [hround] at hsample
  exact ⟨hstate, hsample, by norm_num⟩

/-- With the centred draw 0.5, the perturbation vanishes. -/
theorem perturb_half (v : ℚ) : perturb (1 / 2) v = v := by
  unfold perturb
  ring

/-- In a year before every trend threshold (2010), no multiplier fires. -/
theorem applyTrends_2010 (g : AirlineGroup) (m : ℕ) (v : ℚ) :
    applyTrends g 2010 m v = v := by
  cases g <;> simp only [applyTrends] <;> norm_num

/-- A whole step at year 2010 with the centred draw is just the clamp. -/
theorem stepValue_2010_half (g : AirlineGroup) (m : ℕ) (v : ℚ) :
    stepValue g 2010 m (1 / 2) v = clampBand g v := by
  unfold stepValue
  rw [perturb_half, applyTrends_2010]

/-- The initial value of the centred draw is a fixed point of its clamp. -/
theorem clampBand_initValue_half (g : AirlineGroup) :
    clampBand g (initValue g (1 / 2)) = initValue g (1 / 2) := by
  cases g <;> simp only [clampBand, initValue] <;> norm_num

/-- Keys not written by the initialization fold keep their entries. -/
theorem initFold_not_mem (rand : ℕ → ℚ) :
    ∀ (l : List (ℕ × Airline)) (st : String → ℚ) (c : String),
      c ∉ l.map (fun q => q.2.code) →
      (l.foldl (fun st p => updFn st p.2.code (initValue p.2.group (rand p.1))) st) c
        = st c := by
  intro l
  induction l with
  | nil => exact fun st c h => rfl
  | cons p rest ih =>
      intro st c h
      rw [List.map_cons, List.mem_cons] at h
      push_neg at h
      rw [List.foldl_cons]
      rw [ih _ c h.2]
      unfold updFn
      simp [h.1]

/-- For duplicate-free codes, the initialization fold seeds every listed
airline from its own random draw. -/
theorem initFold_mem (rand : ℕ → ℚ) :
    ∀ (l : List (ℕ × Airline)) (st : String → ℚ) (q : ℕ × Airline),
      (l.map (fun p => p.2.code)).Nodup → q ∈ l →
      (l.foldl (fun st p => updFn st p.2.code (initValue p.2.group (rand p.1))) st)
        q.2.code = initValue q.2.group (rand q.1) := by
  intro l
  induction l with
  | nil => intro st q hnd hq; cases hq
  | cons p rest ih =>
      intro st q hnd hq
      rw [List.map_cons, List.nodup_cons] at hnd
      rw [List.mem_cons] at hq
      rw [List.foldl_cons]
      rcases hq with h | h
      · subst h
        rw [initFold_not_mem rand rest _ q.2.code hnd.1]
        unfold updFn
        simp
      · exact ih _ q hnd.2 h

/-- For duplicate-free codes, `initLastValues` seeds every airline from its
positional draw. -/
theorem initLastValues_mem (airlines : List Airline) (rand : ℕ → ℚ)
    (hnd : (airlines.map Airline.code).Nodup) (q : ℕ × Airline)
    (hq : q ∈ airlines.enum) :
    initLastValues airlines rand q.2.code = initValue q.2.group (rand q.1) := by
  unfold initLastValues
  exact initFold_mem rand airlines.enum _ q (by rw [enum_codes]; exact hnd) hq

/-- Fixed-point run: over steps all dated 2010, with the constant 0.5 source,
a state holding every airline at its centred initial value is preserved. -/
theorem runState_fixed (airlines : List Airline)
    (hnd : (airlines.map Airline.code).Nodup) (n : ℕ) :
    ∀ (steps : List (ℕ × ℕ × ℕ)), (∀ s ∈ steps, s.2.1 = 2010) →
      ∀ (st : String → ℚ),
        (∀ q ∈ airlines.enum, st q.2.code = initValue q.2.group (1 / 2)) →
        ∀ q ∈ airlines.enum,
          runState airlines (fun _ => 1 / 2) n steps st q.2.code
            = initValue q.2.group (1 / 2) := by
  have hnd2 : (airlines.enum.map (fun q => q.2.code)).Nodup := by
    rw [enum_codes]; exact hnd
  intro steps
  induction steps with
  | nil => exact fun hy st hst q hq => hst q hq
  | cons s rest ih =>
      intro hy st hst q hq
      rw [runState]
      refine ih (fun s2 hs2 => hy s2 (List.mem_cons_of_mem s hs2)) _ ?_ q hq
      intro q2 hq2
      have hstep := (stepAirlines_mem (fun _ => 1 / 2) n s.1 s.2.1 s.2.2
        airlines.enum st (fun _ => none) q2 hnd2 hq2).1
      have hys : s.2.1 = 2010 := hy s (List.mem_cons_self s rest)
      calc (stepPoint airlines (fun _ => 1 / 2) n s.1 s.2.1 s.2.2 st).1 q2.2.code
          = stepValue q2.2.group s.2.1 s.2.2 (1 / 2) (st q2.2.code) := hstep
        _ = initValue q2.2.group (1 / 2) := by
            rw [hys, hst q2 hq2, stepValue_2010_half, clampBand_initValue_half]

/-- C9: the generator takes the random source as a parameter; with the
constant 0.5 source (zero perturbation) on the two-plus-two catalog over the
single year 2010 (12 samples), every stored sample of every series equals
the rounding of the initial value of that series — no trend multiplier fires. -/
theorem constant_half_source_keeps_initial_values :
    (generateDataFrom [2010] c9Airlines c9Rand).length = 12 ∧
    ∀ a ∈ c9Airlines, ∀ t, t < 12 →
      ((generateDataFrom [2010] c9Airlines c9Rand).getD t defaultDataPoint).values
        a.code = some (jsRound (initValue a.group (1 / 2))) := by
  have hlen : (generateDataFrom [2010] c9Airlines c9Rand).length = 12 := by
    rw [generateDataFrom, runSteps_length]
    decide
  refine ⟨hlen, ?_⟩
  intro a ha t ht
  have hnd : (c9Airlines.map Airline.code).Nodup := by decide
  obtain ⟨j, hj⟩ := exists_enum_position c9Airlines a ha
  have ht2 : t < ((stepsList [2010]).enum).length := by
    have : ((stepsList [2010]).enum).length = 12 := by decide
    omega
  have h := (runSteps_getD c9Airlines c9Rand c9Airlines.length hnd (j, a) hj
    ((stepsList [2010]).enum) (initLastValues c9Airlines c9Rand) t ht2).1
  have hy : ∀ s ∈ (stepsList [2010]).enum, s.2.1 = 2010 := by decide
  have hfix := runState_fixed c9Airlines hnd c9Airlines.length
    (((stepsList [2010]).enum).take (t + 1))
    (fun s hs => hy s (List.take_subset _ _ hs))
    (initLastValues c9Airlines c9Rand)
    (fun q hq => initLastValues_mem c9Airlines c9Rand hnd q hq)
    (j, a) hj
  have hfix2 : runState c9Airlines c9Rand c9Airlines.length
      (((stepsList [2010]).enum).take (t + 1))
      (initLastValues c9Airlines c9Rand) a.code = initValue a.group (1 / 2) := hfix
  have h2 : ((generateDataFrom [2010] c9Airlines c9Rand).getD t
      defaultDataPoint).values a.code
      = some (jsRound (runState c9Airlines c9Rand c9Airlines.length
          (((stepsList [2010]).enum).take (t + 1))
          (initLastValues c9Airlines c9Rand) a.code)) := h
  rw [h2, hfix2]

/-- Witness for C9 at the first airline and first step. -/
theorem constant_half_source_keeps_initial_values_witness :
    ((generateDataFrom [2010] c9Airlines c9Rand).getD 0 defaultDataPoint).values "P1"
      = some (jsRound (initValue AirlineGroup.operating (1 / 2))) :=
  constant_half_source_keeps_initial_values.2
    { code := "P1", name := "Airline P1", color := "#1f77b4",
      group := AirlineGroup.operating } (by decide) 0 (by decide)

/-- C5: in single mode the tooltip payload is null when there is no hovered
code or no active index; with a hovered code present in the catalog and an
active index inside the matrix, it is the single payload carrying the
hovered code, the time coordinate of the point and the stored value of that
series,
an undefined lookup being displayed as 0. -/
theorem tooltip_single_mode (airlines : List Airline) (data : List DataPoint)
    (st : AppState) (hmode : st.singleAirlineMode = true) :
    ((st.hoveredItem = Option.none ∨ st.activeIndex = Option.none) →
      customTooltip airlines data st = TooltipPayload.none) ∧
    (∀ code i, st.hoveredItem = some code → st.activeIndex = some i →
      (∃ a ∈ airlines, a.code = code) → i < data.length →
      customTooltip airlines data st
        = TooltipPayload.single code (data.getD i defaultDataPoint).year
            (((data.getD i defaultDataPoint).values code).getD 0)) := by
  obtain ⟨mode, hitems, hgroups, hov, ai⟩ := st
  simp only at hmode
  subst hmode
  constructor
  · intro hcase
    rcases ai with _ | i
    · rfl
    · have hh : hov = Option.none := by
        rcases hcase with h | h
        · exact h
        · exact absurd h (by simp)
      subst hh
      show (match data[i]? with
        | Option.none => TooltipPayload.none
        | some _ => TooltipPayload.none) = TooltipPayload.none
      cases data[i]? <;> rfl
  · intro code i hh hai hex hlen
    simp only at hh hai
    subst hh
    subst hai
    have hfind : (airlines.find? (fun a => a.code == code)).isSome = true := by
      rw [List.find?_isSome]
      obtain ⟨a, ha, hac⟩ := hex
      exact ⟨a, ha, by simp [hac]⟩
    rcases hfd : airlines.find? (fun a => a.code == code) with _ | afound
    · rw [hfd] at hfind
      simp at hfind
    · have hdp : data[i]? = some (data.getD i defaultDataPoint) := by
        rw [List.getElem?_eq_getElem hlen,
          List.getD_eq_getElem data defaultDataPoint hlen]
      show (match data[i]? with
        | Option.none => TooltipPayload.none
        | some dp =>
            match airlines.find? (fun a => a.code == code) with
            | Option.none => TooltipPayload.none
            | some _ => TooltipPayload.single code dp.year ((dp.values code).getD 0))
        = TooltipPayload.single code (data.getD i defaultDataPoint).year
            (((data.getD i defaultDataPoint).values code).getD 0)
      rw [hdp, hfd]

/-- Witness for C5 on a one-airline catalog and one-point matrix. -/
theorem tooltip_single_mode_witness :
    customTooltip [c5Airline] c5Data c5State
      = TooltipPayload.single "LX" ((c5Data.getD 0 defaultDataPoint).year)
          (((c5Data.getD 0 defaultDataPoint).values "LX").getD 0) :=
  (tooltip_single_mode [c5Airline] c5Data c5State rfl).2 "LX" 0 rfl rfl
    ⟨c5Airline, List.mem_singleton.2 rfl, rfl⟩ (by decide)

/-- C6: for every reachable hover state (no hover, or one of the catalog
codes), the sorted render list keeps all non-hovered airlines in catalog
order, and when a code is hovered, the last rendered airline is the hovered
one. -/
theorem hovered_airline_rendered_last (hov : Option String)
    (hmem : hov ∈ Option.none :: generateAirlines.map (fun a => some a.code)) :
    ((sortedAirlines generateAirlines hov).filter (fun a => !(some a.code == hov))
      = generateAirlines.filter (fun a => !(some a.code == hov))) ∧
    (hov.elim True (fun c =>
      ((sortedAirlines generateAirlines hov).getLast?).map Airline.code = some c)) := by
  have hcat : generateAirlines = catalogList := by decide
  rw [hcat] at hmem
  rw [sortedAirlines, hcat]
  simp only [catalogList, List.map_cons, List.map_nil, List.mem_cons,
    List.not_mem_nil, or_false] at hmem
  rcases hmem with h | h | h | h | h | h | h | h | h | h | h | h | h <;> subst h <;>
    constructor <;>
    simp [catalogList, sortComparator, List.mergeSort]

/-- Witness for C6: after hovering "BA", the last rendered airline is "BA"
and the others keep catalog order. -/
theorem hovered_airline_rendered_last_witness :
    ((sortedAirlines generateAirlines (some "BA")).filter
        (fun a => !(some a.code == some "BA"))
      = generateAirlines.filter (fun a => !(some a.code == some "BA"))) ∧
    ((sortedAirlines generateAirlines (some "BA")).getLast?).map Airline.code
      = some "BA" := by
  have h := hovered_airline_rendered_last (some "BA") (by decide)
  exact ⟨h.1, h.2⟩

/-- The two initial-value formulas agree. -/
theorem chart_initValue_eq (g : AirlineGroup) (r : ℚ) :
    Chart.initValue g r = initValue g r := by
  cases g <;> rfl

/-- The two per-airline step formulas agree. -/
theorem chart_stepValue_eq (g : AirlineGroup) (y m : ℕ) (r lv : ℚ) :
    Chart.stepValue g y m r lv = stepValue g y m r lv := by
  cases g <;> rfl

/-- The two initialization loops agree. -/
theorem chart_initLastValues_eq (airlines : List Airline) (rand : ℕ → ℚ) :
    Chart.initLastValues airlines rand = initLastValues airlines rand := by
  unfold Chart.initLastValues initLastValues
  congr 1

/-- The two inner month-step loops agree. -/
theorem chart_stepAirlines_eq (rand : ℕ → ℚ) (n t y m : ℕ) :
    ∀ (l : List (ℕ × Airline)) (st : String → ℚ) (vals : String → Option ℤ),
      Chart.stepAirlines rand n t y m l st vals
        = stepAirlines rand n t y m l st vals := by
  intro l
  induction l with
  | nil => exact fun st vals => rfl
  | cons p rest ih =>
      intro st vals
      rw [Chart.stepAirlines, stepAirlines]
      simp only [chart_stepValue_eq]
      exact ih _ _

/-- The two month steps agree. -/
theorem chart_stepPoint_eq (airlines : List Airline) (rand : ℕ → ℚ)
    (n t y m : ℕ) (st : String → ℚ) :
    Chart.stepPoint airlines rand n t y m st = stepPoint airlines rand n t y m st := by
  unfold Chart.stepPoint stepPoint
  rw [chart_stepAirlines_eq]

/-- The two outer loops agree. -/
theorem chart_runSteps_eq (airlines : List Airline) (rand : ℕ → ℚ) (n : ℕ) :
    ∀ (steps : List (ℕ × ℕ × ℕ)) (st : String → ℚ),
      Chart.runSteps airlines rand n steps st = runSteps airlines rand n steps st := by
  intro steps
  induction steps with
  | nil => exact fun st => rfl
  | cons s rest ih =>
      intro st
      rw [Chart.runSteps, runSteps]
      simp only [chart_stepPoint_eq]
      rw [ih]

/-- C10: the generator embedded in `src/App.tsx` and the generator of
`src/components/LineChart.tsx` are extensionally equal — for every catalog
and every random stream they produce the same list of data points (same
length, same time coordinates, same per-series values). -/
theorem generateData_implementations_agree (airlines : List Airline)
    (rand : ℕ → ℚ) :
    Chart.generateData airlines rand = generateData airlines rand := by
  unfold Chart.generateData generateData Chart.generateDataFrom generateDataFrom
  rw [chart_initLastValues_eq, chart_runSteps_eq,
    show Chart.stepsList Chart.defaultYears = stepsList defaultYears from rfl]
